import Mathlib

/-!
Shallow embedding of the POSAI Shopify extension repository, covering the
recommendation fetch / normalize / cart-mutate flow shared by the checkout
surface (`extensions/pos-recommender/src/Checkout.jsx`) and the POS modal
(`extensions/pos-tile/src/Modal.jsx` and its banner-bearing variant).

JavaScript strings are modelled by `String`; values that may be `undefined`
or `null` are modelled by `Option`.  Character-level string operations
(`startsWith`, `slice`, `split`) are modelled over `String.toList`.
-/

namespace POSAI

/-- Banner/fetch status enum used by both surfaces:
`idle | loading | success | empty | error`. -/
inductive Status
  | idle
  | loading
  | success
  | empty
  | error
deriving DecidableEq, Repr

/-- The known global-id namespace string `gid://shopify/ProductVariant/`
from `Checkout.jsx`. -/
def gidNamespace : String := "gid://shopify/ProductVariant/"

/-- Models JS `s.startsWith(p)` via character lists. -/
def jsStartsWith (s p : String) : Bool :=
  p.toList.isPrefixOf s.toList

/-- Models JS `s.slice(k)` (drop the first `k` characters). -/
def jsSliceFrom (s : String) (k : Nat) : String :=
  ⟨s.toList.drop k⟩

/-- Models JS `s.split("/")` over a character list: splits at every `'/'`,
keeping empty segments, and yields `[""]` on the empty string. -/
def jsSplitSlash : List Char → List (List Char)
  | [] => [[]]
  | c :: rest =>
    let r := jsSplitSlash rest
    if c = '/' then [] :: r
    else
      match r with
      | [] => [[c]]
      | h :: t => (c :: h) :: t

/-- `numericVariantIdFromGid` from `Checkout.jsx` lines 59–67.
The argument is `Option String`: `none` models a missing (`undefined`/`null`)
global id, which is falsy.  Returns `none` where the JS returns `null`. -/
def numericVariantIdFromGid (gid : Option String) : Option String :=
  match gid with
  | none => none
  | some s =>
    if s = "" then none
    else if jsStartsWith s gidNamespace then
      some (jsSliceFrom s gidNamespace.length)
    else
      let last := (jsSplitSlash s.toList).getLastD []
      if last = [] then none else some ⟨last⟩

/-- `variantGidFromNumeric` from `Checkout.jsx` lines 69–71. -/
def variantGidFromNumeric (numericId : String) : String :=
  gidNamespace ++ numericId

/-- A numeric string: nonempty, all decimal digits. -/
def isNumericString (s : String) : Bool :=
  s ≠ "" && s.toList.all Char.isDigit

/-- Image record `{url, altText}` attached to a recommendation. -/
structure Image where
  url : String
  altText : String
deriving DecidableEq, Repr

/-- A backend recommendation entry, restricted to the fields the control
flow reads: `variantId` (may be absent) and `image` (may be absent). -/
structure Rec where
  variantId : Option String
  image : Option Image
deriving DecidableEq, Repr

/-- The variantId field of a recommendation. -/
def vidOf (r : Rec) : Option String := r.variantId

/-- Shape of the `recommendations` field of a decoded backend response body:
it can be absent (`missing`), JSON `null`, some other non-array value (with
its JS truthiness), or an array whose entries may themselves be `null`. -/
inductive RecField
  | missing
  | nullv
  | other (truthy : Bool)
  | arr (xs : List (Option Rec))
deriving DecidableEq, Repr

/-- Checkout surface's defensive read
`Array.isArray(data?.recommendations) ? data.recommendations : []`
(`Checkout.jsx` line 158). -/
def checkoutBase : RecField → List (Option Rec)
  | .arr xs => xs
  | _ => []

/-- POS modal's read `data.recommendations || []`
(banner-bearing `Modal.jsx`, `handleButtonClick`): falsy values coerce to
the empty array, an array passes through unchanged, and a truthy non-array
value (`none` result) flows onward unparsed (it is not coerced to a list,
and mapping over it downstream throws). -/
def modalBase : RecField → Option (List (Option Rec))
  | .missing => some []
  | .nullv => some []
  | .other t => if t then none else some []
  | .arr xs => some xs

/-- The checkout cleaning loop of `fetchRecommendations`
(`Checkout.jsx` lines 161–169): skip null entries and entries with a falsy
`variantId`, skip `variantId`s already seen, push otherwise, and break once
the cleaned list reaches 4 entries.  `seen` is the set of ids pushed so far
and `len` the number of entries pushed so far. -/
def cleanRecsFrom : List (Option Rec) → List String → Nat → List Rec
  | [], _, _ => []
  | r? :: rest, seen, len =>
    match r? with
    | none => cleanRecsFrom rest seen len
    | some r =>
      match r.variantId with
      | none => cleanRecsFrom rest seen len
      | some v =>
        if v = "" then cleanRecsFrom rest seen len
        else if v ∈ seen then cleanRecsFrom rest seen len
        else if len + 1 ≥ 4 then [r]
        else r :: cleanRecsFrom rest (v :: seen) (len + 1)

/-- The cleaned recommendation list the checkout surface computes from the
parsed `recommendations` array. -/
def cleanRecs (base : List (Option Rec)) : List Rec :=
  cleanRecsFrom base [] 0

/-- Outcome of a checkout `fetch` of `/api/recommendations`: the promise
rejected (or `res.json()` threw), or it resolved with `res.ok` and a decoded
body whose `recommendations` field has the given shape. -/
inductive CheckoutHttpResult
  | netError
  | response (ok : Bool) (body : RecField)
deriving DecidableEq, Repr

/-- The component state written by one run of the checkout
`fetchRecommendations` (status and recommendation list). -/
structure FetchOutcome where
  status : Status
  recommendations : List Rec
deriving DecidableEq, Repr

/-- `fetchRecommendations` from `Checkout.jsx` lines 143–187, as a pure
function of the HTTP result: a thrown fetch or a non-2xx response lands in
the `catch` (status `error`, list cleared); a 2xx response is parsed
defensively, cleaned, and yields `empty` or `success`. -/
def fetchRecommendations : CheckoutHttpResult → FetchOutcome
  | .netError => ⟨.error, []⟩
  | .response false _ => ⟨.error, []⟩
  | .response true body =>
    let cleaned := cleanRecs (checkoutBase body)
    if cleaned = [] then ⟨.empty, cleaned⟩ else ⟨.success, cleaned⟩

/-- What one run of the checkout cart-change effect (`Checkout.jsx` lines
116–141) does: which state it writes (`none` = untouched), whether it
schedules a debounced fetch, and the value of `skipNextAutoFetchRef` after
the run. -/
structure EffectResult where
  newStatus : Option Status
  newRecommendations : Option (List Rec)
  fetchScheduled : Bool
  newSkipFlag : Bool
deriving DecidableEq, Repr

/-- The checkout cart-change effect body: empty cart clears the list and
sets `empty` without touching the skip flag or scheduling a fetch; a set
skip flag is consumed (reset) without scheduling; otherwise a debounced
fetch is scheduled. -/
def cartChangeEffect (cartVarIds : List String) (skipFlag : Bool) : EffectResult :=
  if cartVarIds = [] then ⟨some .empty, some [], false, skipFlag⟩
  else if skipFlag then ⟨none, none, false, false⟩
  else ⟨none, none, true, skipFlag⟩

/-- The debounce delay (`Checkout.jsx` line 135). -/
def debounceMs : Nat := 350

/-- Timer semantics of the debounced effect runs: the first argument is the
deadline of the pending `setTimeout` (if any), the second the sorted times
of successive fetch-scheduling effect runs.  Each run clears the pending
timer (`clearTimeout`) — the timer only fires if its deadline falls at or
before the next run — and schedules a new one `debounceMs` later.  Returns
the times at which a network fetch is actually issued. -/
def runDebounce : Option Nat → List Nat → List Nat
  | pending, [] =>
    match pending with
    | some d => [d]
    | none => []
  | pending, t :: rest =>
    match pending with
    | some d =>
      if d ≤ t then d :: runDebounce (some (t + debounceMs)) rest
      else runDebounce (some (t + debounceMs)) rest
    | none => runDebounce (some (t + debounceMs)) rest

/-- `skipNextAutoFetchRef.current` after a call of `handleAdd`
(`Checkout.jsx` lines 190–192): the flag is set to `true` unless the
early-return on a falsy `variantId` fires first. -/
def handleAddSetsFlag (rec : Rec) (flag : Bool) : Bool :=
  match rec.variantId with
  | none => flag
  | some v => if v = "" then flag else true

/-- A checkout cart line `{id, merchandise: {id}, quantity}`; the
merchandise id and the quantity may be absent. -/
structure CartLine where
  id : String
  merchandiseId : Option String
  quantity : Option Nat
deriving DecidableEq, Repr

/-- The `applyCartLinesChange` payload issued by `handleAdd`. -/
inductive CartLinesChange
  | updateCartLine (id : String) (quantity : Nat)
  | addCartLine (merchandiseId : String) (quantity : Nat)
deriving DecidableEq, Repr

/-- The cart mutation issued by `handleAdd` (`Checkout.jsx` lines 190–218):
`none` if the falsy-`variantId` early return fires; otherwise an
`updateCartLine` with quantity `(existing.quantity ?? 1) + 1` when the
recommendation's global id matches an existing line and update is
permitted, else an `addCartLine` with quantity 1. -/
def handleAddChange (lines : List CartLine) (canUpdate : Bool) (rec : Rec) :
    Option CartLinesChange :=
  match rec.variantId with
  | none => none
  | some v =>
    if v = "" then none
    else
      let merchandiseId := variantGidFromNumeric v
      match lines.find? (fun l => l.merchandiseId = some merchandiseId) with
      | some line =>
        if canUpdate then some (.updateCartLine line.id (line.quantity.getD 1 + 1))
        else some (.addCartLine merchandiseId 1)
      | none => some (.addCartLine merchandiseId 1)

/-- What the checkout component renders at top level
(`Checkout.jsx` lines 246–253). -/
inductive CheckoutRender
  | staticUnsupported
  | interactive
deriving DecidableEq, Repr

/-- The capability guard: when neither `canAddCartLine` nor
`canUpdateCartLine` is available, a static warning banner replaces the
whole feature. -/
def checkoutRender (canAdd canUpdate : Bool) : CheckoutRender :=
  if !canAdd && !canUpdate then .staticUnsupported else .interactive

/-- JS Set-based de-duplication (`Array.from(new Set(…))` and the
`for … set.add` loops): keep the first occurrence of each element. -/
def jsSetDedupFrom [DecidableEq α] : List α → List α → List α
  | [], _ => []
  | x :: xs, seen =>
    if x ∈ seen then jsSetDedupFrom xs seen
    else x :: jsSetDedupFrom xs (x :: seen)

/-- De-duplicate a list keeping first occurrences. -/
def jsSetDedup [DecidableEq α] (l : List α) : List α :=
  jsSetDedupFrom l []

/-- The contribution of one cart line to `cartVariantIds`
(`Checkout.jsx` lines 74–81): its normalized numeric id, if truthy. -/
def normalizedId (l : CartLine) : Option String :=
  match numericVariantIdFromGid l.merchandiseId with
  | none => none
  | some s => if s = "" then none else some s

/-- `cartVariantIds` from `Checkout.jsx` lines 74–81: the set (insertion
order, first occurrence) of truthy normalized numeric variant ids. -/
def cartVariantIds (lines : List CartLine) : List String :=
  jsSetDedup (lines.filterMap normalizedId)

/-- Models JS `Array.prototype.sort()` on an array of strings:
lexicographic ascending order. -/
def sortStrings (l : List String) : List String :=
  List.insertionSort (· ≤ ·) l

/-- `cartSignature` from `Checkout.jsx` lines 84–87:
`cartVariantIds.slice().sort().join(",")`. -/
def cartSignature (lines : List CartLine) : String :=
  String.intercalate "," (sortStrings (cartVariantIds lines))

/-- The cart-change effect is keyed on `[cartSignature]`, so it re-runs
exactly when the signature string changed. -/
def effectRerun (sig1 sig2 : String) : Bool :=
  sig1 != sig2

/-- An image node returned by the Admin GraphQL query; `altText` may be
absent. -/
structure NodeImage where
  url : String
  altText : Option String
deriving DecidableEq, Repr

/-- A `ProductVariant` node of the Admin GraphQL `nodes` response:
its id, its variant-level image, and its product's featured image. -/
structure NodeInfo where
  id : Option String
  image : Option NodeImage
  featuredImage : Option NodeImage
deriving DecidableEq, Repr

/-- Outcome of the modal's secondary Admin GraphQL image fetch: the fetch
(or response decoding) threw, or it resolved non-2xx, or it resolved 2xx
with a list of nodes (entries may be `null`). -/
inductive HydrationResult
  | thrown
  | httpError
  | ok (nodes : List (Option NodeInfo))
deriving DecidableEq, Repr

/-- Strips the `ProductVariant` gid namespace if present, else returns the
string unchanged (`Modal.jsx` lines 93–95). -/
def stripGidNamespace (s : String) : String :=
  if jsStartsWith s gidNamespace then jsSliceFrom s gidNamespace.length else s

/-- Builds `imageByVariantId` (`Modal.jsx` lines 87–105): skip null nodes
and nodes with a falsy id; prefer the variant image over the product
featured image; default `altText` to `""`.  Later nodes overwrite earlier
ones with the same key, modelled by prepending so that `List.lookup` finds
the most recent write. -/
def imageMap (nodes : List (Option NodeInfo)) : List (String × Image) :=
  nodes.foldl
    (fun m n? =>
      match n? with
      | none => m
      | some node =>
        match node.id with
        | none => m
        | some i =>
          if i = "" then m
          else
            match (match node.image with
                   | some im => some im
                   | none => node.featuredImage) with
            | none => m
            | some img => (stripGidNamespace i, ⟨img.url, img.altText.getD ""⟩) :: m)
    []

/-- The final map of `hydrateRecommendationsWithImages`
(`Modal.jsx` lines 107–110): attach `imageByVariantId[rec.variantId] || null`
to every recommendation. -/
def attachImages (recs : List Rec) (nodes : List (Option NodeInfo)) : List Rec :=
  let m := imageMap nodes
  recs.map (fun r => { r with image := r.variantId.bind (fun v => m.lookup v) })

/-- `hydrateRecommendationsWithImages` (`Modal.jsx` lines 45–112) as a
function of the Admin fetch outcome.  An empty input returns immediately
without issuing the fetch; a non-2xx response logs and returns the original
list; a thrown fetch rejects the promise (`Except.error`), which the caller
sees as an exception. -/
def hydrateRecommendationsWithImages (baseRecs : List Rec) (res : HydrationResult) :
    Except Unit (List Rec) :=
  if baseRecs = [] then .ok baseRecs
  else
    match res with
    | .thrown => .error ()
    | .httpError => .ok baseRecs
    | .ok nodes => .ok (attachImages baseRecs nodes)

/-- Outcome of a modal backend fetch: the promise rejected, or it resolved
with `res.ok` and a body whose `recommendations` coerced to the given list
of well-formed entries. -/
inductive ModalHttpResult
  | netError
  | response (ok : Bool) (recs : List Rec)
deriving DecidableEq, Repr

/-- The modal state written by one run of `handleButtonClick`
(banner-bearing `Modal.jsx`): the banner status after the run (starting
from `loading`), the new recommendation list (`none` = state not written
this run), and whether the failure toast was shown. -/
structure ModalOutcome where
  bannerStatus : Status
  recommendations : Option (List Rec)
  toastError : Bool
deriving DecidableEq, Repr

/-- `handleButtonClick` of the banner-bearing `Modal.jsx` (lines 220–258),
from the point where the cart guards have passed, as a function of the
backend result and the hydration outcome.  `renderStatus` is the
`bannerStatus` captured by the closure at render time: the `catch` only
writes `error` when that stale value is not already `error` (otherwise the
`loading` written at the start of the run is left in place). -/
def modalHandleButtonClick (renderStatus : Status) (res : ModalHttpResult)
    (hyd : HydrationResult) : ModalOutcome :=
  match res with
  | .netError =>
    ⟨if renderStatus ≠ .error then .error else .loading, none, true⟩
  | .response false _ =>
    ⟨.error, some [], true⟩
  | .response true recs =>
    match hydrateRecommendationsWithImages recs hyd with
    | .error _ => ⟨if renderStatus ≠ .error then .error else .loading, none, true⟩
    | .ok recs2 => ⟨if recs2 = [] then .empty else .success, some recs2, false⟩

/-- Models `Number.isFinite(Number(s))` on the id strings this system uses:
`undefined` is not finite; the empty string coerces to `0`; a string of
decimal digits is finite.  (Signs, decimals and exponents never occur in
variant ids and are not modelled.) -/
def jsNumberFinite : Option String → Bool
  | none => false
  | some s => s = "" || (s.toList ≠ [] && s.toList.all Char.isDigit)

/-- Number of successful `addLineItem` calls in the bulk-add loop
(`handleAddAllToCart`, banner-bearing `Modal.jsx` lines 98–110): entries
with a non-finite id are skipped without an attempt, attempts that throw
are logged and not counted. -/
def bulkAddCount (toAdd : List Rec) (succeeds : Option String → Bool) : Nat :=
  toAdd.countP (fun r => jsNumberFinite r.variantId && succeeds r.variantId)

/-- `addedVariantIds` after `handleAddAllToCart` (banner-bearing
`Modal.jsx` lines 83–122): if no candidate remains or every attempt failed,
the state is unchanged; if at least one attempt succeeded, ALL candidate
ids (including failed and skipped ones) are merged into the set. -/
def handleAddAllToCart (recs : List Rec) (added : List (Option String))
    (succeeds : Option String → Bool) : List (Option String) :=
  if recs = [] then added
  else
    let toAdd := recs.filter (fun r => !(decide (r.variantId ∈ added)))
    if toAdd = [] then added
    else if bulkAddCount toAdd succeeds > 0 then
      jsSetDedup (added ++ toAdd.map vidOf)
    else added

/-- The badge the modal renders for a recommendation (banner-bearing
`Modal.jsx` lines 331–333): `Added` iff its id is in `addedVariantIds`. -/
def renderBadgeModal (added : List (Option String)) (r : Rec) : String :=
  if r.variantId ∈ added then "Added" else "Suggested"

/-- A sample recommendation with variant id `"1"`. -/
def rec1 : Rec := ⟨some "1", none⟩

/-- A sample recommendation with variant id `"2"`. -/
def rec2 : Rec := ⟨some "2", none⟩

/- ### Lemmas about the cleaning loop -/

theorem cleanRecsFrom_length (l : List (Option Rec)) :
    ∀ seen len, len < 4 → (cleanRecsFrom l seen len).length + len ≤ 4 := by
  induction l with
  | nil => intro seen len h; simp [cleanRecsFrom]; omega
  | cons r? rest ih =>
    intro seen len h
    cases r? with
    | none => simpa [cleanRecsFrom] using ih seen len h
    | some r =>
      simp only [cleanRecsFrom]
      cases hv : r.variantId with
      | none => simpa using ih seen len h
      | some v =>
        by_cases hv0 : v = ""
        · simpa [hv0] using ih seen len h
        · by_cases hmem : v ∈ seen
          · simpa [hv0, hmem] using ih seen len h
          · by_cases hcap : len + 1 ≥ 4
            · simp [hv0, hmem, hcap]; omega
            · have := ih (v :: seen) (len + 1) (by omega)
              simp [hv0, hmem, hcap]
              omega

theorem cleanRecsFrom_mem (l : List (Option Rec)) :
    ∀ seen len r, r ∈ cleanRecsFrom l seen len →
      ∃ v, r.variantId = some v ∧ v ∉ seen ∧ v ≠ "" := by
  induction l with
  | nil => intro seen len r hr; simp [cleanRecsFrom] at hr
  | cons r? rest ih =>
    intro seen len r hr
    cases r? with
    | none => exact ih seen len r (by simpa [cleanRecsFrom] using hr)
    | some r' =>
      cases hv : r'.variantId with
      | none =>
        simp only [cleanRecsFrom, hv] at hr
        exact ih seen len r hr
      | some v =>
        simp only [cleanRecsFrom, hv] at hr
        by_cases hv0 : v = ""
        · rw [if_pos hv0] at hr; exact ih seen len r hr
        · rw [if_neg hv0] at hr
          by_cases hmem : v ∈ seen
          · rw [if_pos hmem] at hr; exact ih seen len r hr
          · rw [if_neg hmem] at hr
            by_cases hcap : len + 1 ≥ 4
            · rw [if_pos hcap] at hr
              have : r = r' := by simpa using hr
              exact ⟨v, this ▸ hv, hmem, hv0⟩
            · rw [if_neg hcap] at hr
              rcases List.mem_cons.mp hr with h | h
              · exact ⟨v, h ▸ hv, hmem, hv0⟩
              · rcases ih (v :: seen) (len + 1) r h with ⟨w, hw, hwseen, hw0⟩
                exact ⟨w, hw, fun hws => hwseen (List.mem_cons_of_mem _ hws), hw0⟩

theorem cleanRecsFrom_nodup (l : List (Option Rec)) :
    ∀ seen len, ((cleanRecsFrom l seen len).map vidOf).Nodup := by
  induction l with
  | nil => intro seen len; simp [cleanRecsFrom]
  | cons r? rest ih =>
    intro seen len
    cases r? with
    | none => simpa [cleanRecsFrom] using ih seen len
    | some r' =>
      cases hv : r'.variantId with
      | none => simpa [cleanRecsFrom, hv] using ih seen len
      | some v =>
        by_cases hv0 : v = ""
        · simpa [cleanRecsFrom, hv, hv0] using ih seen len
        · by_cases hmem : v ∈ seen
          · simpa [cleanRecsFrom, hv, hv0, hmem] using ih seen len
          · by_cases hcap : len + 1 ≥ 4
            · simp [cleanRecsFrom, hv, hv0, hmem, hcap]
            · have hgoal :
                  cleanRecsFrom (some r' :: rest) seen len =
                    r' :: cleanRecsFrom rest (v :: seen) (len + 1) := by
                simp [cleanRecsFrom, hv, hv0, hmem, hcap]
              rw [hgoal, List.map_cons, List.nodup_cons]
              refine ⟨?_, ih (v :: seen) (len + 1)⟩
              intro hcontra
              rcases List.mem_map.mp hcontra with ⟨r'', hr'', hvid⟩
              rcases cleanRecsFrom_mem rest (v :: seen) (len + 1) r'' hr''
                with ⟨w, hw, hwseen, _⟩
              simp only [vidOf, hw, hv] at hvid
              exact hwseen (by rw [Option.some_inj.mp hvid]; exact List.mem_cons_self _ _)

theorem cleanRecsFrom_sublist (l : List (Option Rec)) :
    ∀ seen len, ((cleanRecsFrom l seen len).map some).Sublist l := by
  induction l with
  | nil => intro seen len; simp [cleanRecsFrom]
  | cons r? rest ih =>
    intro seen len
    cases r? with
    | none => exact .cons none (by simpa [cleanRecsFrom] using ih seen len)
    | some r' =>
      simp only [cleanRecsFrom]
      cases hv : r'.variantId with
      | none => exact .cons (some r') (by simpa using ih seen len)
      | some v =>
        by_cases hv0 : v = ""
        · exact .cons (some r') (by simpa [hv0] using ih seen len)
        · by_cases hmem : v ∈ seen
          · exact .cons (some r') (by simpa [hv0, hmem] using ih seen len)
          · by_cases hcap : len + 1 ≥ 4
            · simp [hv0, hmem, hcap]
            · simpa [hv0, hmem, hcap] using
                List.Sublist.cons₂ (some r') (ih (v :: seen) (len + 1))

/-- C2: for every backend response array, the checkout surface's cleaned
list contains each `variantId` at most once, is a sublist of the response
array (preserving first-seen order), and has length at most 4, regardless
of the response size. -/
theorem checkout_cleaned_dedup_order_cap (base : List (Option Rec)) :
    ((cleanRecs base).map vidOf).Nodup ∧
    ((cleanRecs base).map some).Sublist base ∧
    (cleanRecs base).length ≤ 4 :=
  ⟨cleanRecsFrom_nodup base [] 0, cleanRecsFrom_sublist base [] 0, by
    have h := cleanRecsFrom_length base [] 0 (by omega)
    have h2 : cleanRecs base = cleanRecsFrom base [] 0 := rfl
    rw [h2]; omega⟩

/- ### Lemmas for the normalizer -/

theorem list_isPrefixOf_self_append (l1 l2 : List Char) :
    l1.isPrefixOf (l1 ++ l2) = true := by
  induction l1 with
  | nil => simp [List.isPrefixOf]
  | cons a as ih => simp [List.isPrefixOf, ih]

theorem jsStartsWith_ns_append (n : String) :
    jsStartsWith (gidNamespace ++ n) gidNamespace = true := by
  rw [jsStartsWith]
  have h2 : (gidNamespace ++ n).toList = gidNamespace.toList ++ n.toList := by
    simp [String.toList]
  rw [h2]
  exact list_isPrefixOf_self_append _ _

theorem jsSliceFrom_ns_append (n : String) :
    jsSliceFrom (gidNamespace ++ n) gidNamespace.length = n := by
  rw [jsSliceFrom]
  have h2 : (gidNamespace ++ n).toList = gidNamespace.toList ++ n.toList := by
    simp [String.toList]
  rw [h2]
  have h3 : gidNamespace.length = gidNamespace.toList.length := rfl
  rw [h3, List.drop_left]
  rfl

theorem gid_append_ne_empty (n : String) : gidNamespace ++ n ≠ "" := by
  intro h
  have hd : (gidNamespace ++ n).data = [] := by rw [h]
  rw [String.data_append] at hd
  rcases List.append_eq_nil.mp hd with ⟨h1, _⟩
  exact absurd h1 (by decide)

/-- C4: the normalizer round-trips on numeric strings, and returns null on
empty (or missing) input. -/
theorem normalizer_round_trip (n : String) (_h : isNumericString n = true) :
    numericVariantIdFromGid (some (variantGidFromNumeric n)) = some n ∧
    numericVariantIdFromGid none = none ∧
    numericVariantIdFromGid (some "") = none := by
  refine ⟨?_, rfl, by simp [numericVariantIdFromGid]⟩
  rw [variantGidFromNumeric]
  simp only [numericVariantIdFromGid]
  rw [if_neg (gid_append_ne_empty n), if_pos (jsStartsWith_ns_append n),
    jsSliceFrom_ns_append]

/-- Witness for C4 at the numeric string `"123"`. -/
theorem normalizer_round_trip_witness :
    numericVariantIdFromGid (some (variantGidFromNumeric "123")) = some "123" :=
  (normalizer_round_trip "123" (by decide)).1

/-- C1: checkout status transitions — a non-2xx response yields status
`error` with the recommendation list cleared; a 2xx response whose cleaned
list is non-empty yields `success`; and an effect run with an empty cart
variant-id list writes status `empty` and an empty list without scheduling
any fetch. -/
theorem checkout_status_transitions :
    (∀ body, fetchRecommendations (.response false body) = ⟨.error, []⟩) ∧
    (∀ body, cleanRecs (checkoutBase body) ≠ [] →
      (fetchRecommendations (.response true body)).status = .success) ∧
    (∀ flag, (cartChangeEffect [] flag).newStatus = some .empty ∧
      (cartChangeEffect [] flag).newRecommendations = some [] ∧
      (cartChangeEffect [] flag).fetchScheduled = false) := by
  refine ⟨fun body => rfl, fun body h => ?_, fun flag => by simp [cartChangeEffect]⟩
  simp [fetchRecommendations, h]

/-- Witness for C1: one valid entry in a 2xx response yields `success`. -/
theorem checkout_status_transitions_witness :
    (fetchRecommendations (.response true (.arr [some rec1]))).status = .success :=
  checkout_status_transitions.2.1 (.arr [some rec1]) (by decide)

/-- C3 (amended): the checkout surface parses a 2xx body defensively (a
missing, null, or non-array `recommendations` field is treated as empty;
falsy `variantId`s are filtered out; duplicates are removed), while the
POS modal only coerces a falsy field to the empty list and otherwise passes
the array through without filtering or de-duplication, and does not coerce
a truthy non-array value. -/
theorem recommendation_parse_by_surface :
    (checkoutBase .missing = [] ∧ checkoutBase .nullv = [] ∧
      (∀ t, checkoutBase (.other t) = []) ∧
      (∀ xs, checkoutBase (.arr xs) = xs)) ∧
    (∀ base, ((cleanRecs base).map vidOf).Nodup ∧
      ∀ r ∈ cleanRecs base, ∃ v, r.variantId = some v ∧ v ≠ "") ∧
    (modalBase .missing = some [] ∧ modalBase .nullv = some [] ∧
      modalBase (.other false) = some [] ∧ modalBase (.other true) = none ∧
      (∀ xs, modalBase (.arr xs) = some xs)) := by
  refine ⟨⟨rfl, rfl, fun t => by cases t <;> rfl, fun xs => rfl⟩,
    fun base => ⟨cleanRecsFrom_nodup base [] 0, fun r hr => ?_⟩,
    ⟨rfl, rfl, rfl, rfl, fun xs => rfl⟩⟩
  rcases cleanRecsFrom_mem base [] 0 r hr with ⟨v, hv, _, hv0⟩
  exact ⟨v, hv, hv0⟩

/-- Witness for C3 (amended), checkout conjunct at a concrete response. -/
theorem recommendation_parse_by_surface_witness :
    ∃ v, rec1.variantId = some v ∧ v ≠ "" :=
  (recommendation_parse_by_surface.2.1 [some rec1]).2 rec1 (by decide)

/-- C3 counterexample: the POS modal passes a response array with a
repeated `variantId` through un-deduplicated, and does not coerce a truthy
non-array `recommendations` value to the empty list — the claimed
defensive parse does not hold on that surface. -/
theorem modal_parse_not_defensive :
    modalBase (.arr [some rec1, some rec1]) = some [some rec1, some rec1] ∧
    ¬ ((([some rec1, some rec1] : List (Option Rec)).filterMap id).map vidOf).Nodup ∧
    modalBase (.other true) = none := by
  refine ⟨rfl, by decide, rfl⟩

/-- C5: the checkout cart mutator — when the recommendation's global id
matches an existing cart line and update is permitted, an `updateCartLine`
with the existing quantity plus one is issued; otherwise an `addCartLine`
with quantity 1; and with both capability flags absent the component
renders the static unsupported banner instead of the feature. -/
theorem checkout_cart_mutator (lines : List CartLine) (canUpdate : Bool)
    (rec : Rec) (v : String) (hv : rec.variantId = some v) (hv0 : v ≠ "") :
    (∀ line q,
      lines.find? (fun l => l.merchandiseId = some (variantGidFromNumeric v)) = some line →
      line.quantity = some q → canUpdate = true →
      handleAddChange lines canUpdate rec = some (.updateCartLine line.id (q + 1))) ∧
    ((lines.find? (fun l => l.merchandiseId = some (variantGidFromNumeric v)) = none ∨
        canUpdate = false) →
      handleAddChange lines canUpdate rec = some (.addCartLine (variantGidFromNumeric v) 1)) ∧
    checkoutRender false false = .staticUnsupported := by
  refine ⟨?_, ?_, rfl⟩
  · intro line q hfind hq hcan
    simp [handleAddChange, hv, hv0, hfind, hcan, hq]
  · intro hOr
    rcases hOr with hfind | hcan
    · simp [handleAddChange, hv, hv0, hfind]
    · cases hfind2 : lines.find?
        (fun l => l.merchandiseId = some (variantGidFromNumeric v)) with
      | none => simp [handleAddChange, hv, hv0, hfind2]
      | some line => simp [handleAddChange, hv, hv0, hfind2, hcan]

/-- A cart line already holding variant `"1"` with quantity 2. -/
def sampleLine : CartLine := ⟨"L1", some (variantGidFromNumeric "1"), some 2⟩

/-- Witness for C5: adding `rec1` over `sampleLine` with update permitted
issues a quantity increment to 3. -/
theorem checkout_cart_mutator_witness :
    handleAddChange [sampleLine] true rec1 = some (.updateCartLine "L1" 3) :=
  (checkout_cart_mutator [sampleLine] true rec1 "1" rfl (by decide)).1
    sampleLine 2 (by decide) rfl rfl

/-- C6 (amended): a non-2xx response of the hydration call is non-fatal —
the original list is returned unchanged and the modal flow ends in `empty`
or `success`, never `error`; a 2xx hydration likewise never produces the
error state.  (A thrown hydration fetch, by contrast, propagates: see the
counterexample.) -/
theorem hydration_http_error_nonfatal (baseRecs recs : List Rec) (rs : Status)
    (nodes : List (Option NodeInfo)) :
    hydrateRecommendationsWithImages baseRecs .httpError = .ok baseRecs ∧
    (modalHandleButtonClick rs (.response true recs) .httpError).bannerStatus ≠ .error ∧
    (modalHandleButtonClick rs (.response true recs) (.ok nodes)).bannerStatus ≠ .error := by
  refine ⟨?_, ?_, ?_⟩
  · by_cases h : baseRecs = [] <;> simp [hydrateRecommendationsWithImages, h]
  · have h1 : hydrateRecommendationsWithImages recs .httpError = .ok recs := by
      by_cases h : recs = [] <;> simp [hydrateRecommendationsWithImages, h]
    simp only [modalHandleButtonClick, h1]
    by_cases h2 : recs = [] <;> simp [h2]
  · by_cases h : recs = []
    · simp [modalHandleButtonClick, hydrateRecommendationsWithImages, h]
    · simp only [modalHandleButtonClick, hydrateRecommendationsWithImages, if_neg h]
      by_cases h2 : attachImages recs nodes = [] <;> simp [h2]

/-- C6 counterexample: with one recommendation and a hydration fetch that
throws, the modal flow reaches the `error` state through hydration alone,
although the backend response itself was 2xx. -/
theorem hydration_thrown_reaches_error :
    (modalHandleButtonClick .idle (.response true [rec1]) .thrown).bannerStatus
      = .error := by decide

/-- C7: three fetch-scheduling effect runs, each within `debounceMs` of the
previous one, issue exactly one network call, `debounceMs` after the last
run; each run cancels the previously pending scheduled fetch. -/
theorem checkout_debounce_three_changes (t1 t2 t3 : Nat)
    (h12 : t2 < t1 + debounceMs) (h23 : t3 < t2 + debounceMs) :
    runDebounce none [t1, t2, t3] = [t3 + debounceMs] := by
  simp only [runDebounce]
  rw [if_neg (by omega), if_neg (by omega)]

/-- Witness for C7 at change times 0, 100, 200. -/
theorem checkout_debounce_three_changes_witness :
    runDebounce none [0, 100, 200] = [550] :=
  checkout_debounce_three_changes 0 100 200 (by decide) (by decide)

/-- C8 (amended): `handleAdd` on a recommendation with a truthy variant id
sets the suppression flag; the next effect run that sees a NON-EMPTY cart
consumes it — no fetch is scheduled and the flag is reset — so the
following run with the flag clear schedules a fetch; but an effect run
that sees an empty cart returns before consuming the flag, leaving it
set. -/
theorem add_then_suppress (rec : Rec) (v : String) (hv : rec.variantId = some v)
    (hv0 : v ≠ "") (flag : Bool) (ids : List String) (hids : ids ≠ []) :
    handleAddSetsFlag rec flag = true ∧
    (cartChangeEffect ids true).fetchScheduled = false ∧
    (cartChangeEffect ids true).newSkipFlag = false ∧
    (cartChangeEffect ids false).fetchScheduled = true ∧
    (cartChangeEffect [] true).newSkipFlag = true := by
  refine ⟨?_, ?_, ?_, ?_, rfl⟩
  · simp [handleAddSetsFlag, hv, hv0]
  · simp [cartChangeEffect, hids]
  · simp [cartChangeEffect, hids]
  · simp [cartChangeEffect, hids]

/-- Witness for C8 (amended) at `rec1` and a one-item cart. -/
theorem add_then_suppress_witness :
    handleAddSetsFlag rec1 false = true ∧
    (cartChangeEffect ["1"] true).fetchScheduled = false ∧
    (cartChangeEffect ["1"] true).newSkipFlag = false ∧
    (cartChangeEffect ["1"] false).fetchScheduled = true ∧
    (cartChangeEffect [] true).newSkipFlag = true :=
  add_then_suppress rec1 "1" rfl (by decide) false ["1"] (by decide)

/-- C8 counterexample: after `handleAdd` sets the flag, an effect run with
an empty cart leaves the flag set — it is NOT reset by that notification —
and the following non-empty cart change is therefore suppressed rather
than fetching normally. -/
theorem suppress_flag_survives_empty_cart :
    (cartChangeEffect [] (handleAddSetsFlag rec1 false)).newSkipFlag = true ∧
    (cartChangeEffect ["2"]
      (cartChangeEffect [] (handleAddSetsFlag rec1 false)).newSkipFlag).fetchScheduled
      = false := by decide

/- ### Lemmas about Set de-duplication -/

theorem mem_jsSetDedupFrom [DecidableEq α] (l : List α) :
    ∀ (seen : List α) (x : α), x ∈ jsSetDedupFrom l seen ↔ x ∈ l ∧ x ∉ seen := by
  induction l with
  | nil => intro seen x; simp [jsSetDedupFrom]
  | cons y ys ih =>
    intro seen x
    by_cases hy : y ∈ seen
    · rw [jsSetDedupFrom, if_pos hy, ih]
      constructor
      · rintro ⟨hx, hxs⟩; exact ⟨List.mem_cons_of_mem _ hx, hxs⟩
      · rintro ⟨hx, hxs⟩
        rcases List.mem_cons.mp hx with rfl | hx'
        · exact absurd hy hxs
        · exact ⟨hx', hxs⟩
    · rw [jsSetDedupFrom, if_neg hy]
      constructor
      · intro hx
        rcases List.mem_cons.mp hx with rfl | hx'
        · exact ⟨List.mem_cons_self _ _, hy⟩
        · rcases (ih (y :: seen) x).mp hx' with ⟨h1, h2⟩
          exact ⟨List.mem_cons_of_mem _ h1, fun hs => h2 (List.mem_cons_of_mem _ hs)⟩
      · rintro ⟨hx, hxs⟩
        rcases List.mem_cons.mp hx with rfl | hx'
        · exact List.mem_cons_self _ _
        · by_cases hxy : x = y
          · subst hxy; exact List.mem_cons_self _ _
          · refine List.mem_cons_of_mem _ ((ih (y :: seen) x).mpr ⟨hx', ?_⟩)
            simp [List.mem_cons, hxy, hxs]

theorem nodup_jsSetDedupFrom [DecidableEq α] (l : List α) :
    ∀ seen : List α, (jsSetDedupFrom l seen).Nodup := by
  induction l with
  | nil => intro seen; simp [jsSetDedupFrom]
  | cons y ys ih =>
    intro seen
    by_cases hy : y ∈ seen
    · rw [jsSetDedupFrom, if_pos hy]; exact ih seen
    · rw [jsSetDedupFrom, if_neg hy, List.nodup_cons]
      refine ⟨fun hc => ?_, ih (y :: seen)⟩
      exact ((mem_jsSetDedupFrom ys (y :: seen) y).mp hc).2 (List.mem_cons_self _ _)

/-- C9: in the modal's bulk add, if at least one attempted `addLineItem`
call succeeded, then every candidate of the batch — including those whose
own call threw — ends up in `addedVariantIds` and is afterwards rendered
with the `Added` badge; failures are not distinguished from successes. -/
theorem modal_bulk_add_marks_all (recs : List Rec) (added : List (Option String))
    (succeeds : Option String → Bool)
    (hsome : ∃ r ∈ recs.filter (fun r => !(decide (r.variantId ∈ added))),
      (jsNumberFinite r.variantId && succeeds r.variantId) = true) :
    ∀ r ∈ recs.filter (fun r => !(decide (r.variantId ∈ added))),
      r.variantId ∈ handleAddAllToCart recs added succeeds ∧
      renderBadgeModal (handleAddAllToCart recs added succeeds) r = "Added" := by
  intro r hr
  rcases hsome with ⟨r0, hr0, hp0⟩
  have hrecs : recs ≠ [] := by
    intro h; subst h; simp at hr0
  have htoAdd : recs.filter (fun r => !(decide (r.variantId ∈ added))) ≠ [] := by
    intro h; rw [h] at hr0; simp at hr0
  have hcnt : 0 < bulkAddCount
      (recs.filter (fun r => !(decide (r.variantId ∈ added)))) succeeds := by
    rw [bulkAddCount]
    exact List.countP_pos_iff.mpr ⟨r0, hr0, hp0⟩
  have hres : handleAddAllToCart recs added succeeds =
      jsSetDedup (added ++
        (recs.filter (fun r => !(decide (r.variantId ∈ added)))).map vidOf) := by
    simp only [handleAddAllToCart]
    rw [if_neg hrecs, if_neg htoAdd, if_pos hcnt]
  have hmem : r.variantId ∈ handleAddAllToCart recs added succeeds := by
    rw [hres, jsSetDedup]
    refine (mem_jsSetDedupFrom _ _ _).mpr ⟨?_, by simp⟩
    exact List.mem_append.mpr (Or.inr (List.mem_map.mpr ⟨r, hr, rfl⟩))
  exact ⟨hmem, by rw [renderBadgeModal, if_pos hmem]⟩

/-- Witness for C9: `rec1` fails its add, `rec2` succeeds; `rec1` is still
marked and badged as `Added`. -/
theorem modal_bulk_add_marks_all_witness :
    (some "1" : Option String) ∈
      handleAddAllToCart [rec1, rec2] [] (fun v => v == some "2") ∧
    renderBadgeModal
      (handleAddAllToCart [rec1, rec2] [] (fun v => v == some "2")) rec1 = "Added" := by
  have h := modal_bulk_add_marks_all [rec1, rec2] [] (fun v => v == some "2")
    (by decide) rec1 (by decide)
  exact ⟨h.1, h.2⟩

/-- C10: the cart signature depends only on the set of normalized numeric
variant ids — two cart-line lists with the same normalized-id membership
(regardless of line order, duplicates, or quantities) yield equal
signature strings, so the signature-keyed effect does not re-run between
them. -/
theorem cart_signature_set_invariant (l1 l2 : List CartLine)
    (h : ∀ s : String, s ∈ l1.filterMap normalizedId ↔ s ∈ l2.filterMap normalizedId) :
    cartSignature l1 = cartSignature l2 ∧
    effectRerun (cartSignature l1) (cartSignature l2) = false := by
  have hmem : ∀ s, s ∈ cartVariantIds l1 ↔ s ∈ cartVariantIds l2 := by
    intro s
    rw [cartVariantIds, cartVariantIds, jsSetDedup, jsSetDedup,
      mem_jsSetDedupFrom, mem_jsSetDedupFrom]
    simp [h s]
  have hnd1 : (cartVariantIds l1).Nodup := nodup_jsSetDedupFrom _ _
  have hnd2 : (cartVariantIds l2).Nodup := nodup_jsSetDedupFrom _ _
  have hperm : List.Perm (cartVariantIds l1) (cartVariantIds l2) :=
    (List.perm_ext_iff_of_nodup hnd1 hnd2).mpr hmem
  have hperm2 : List.Perm (sortStrings (cartVariantIds l1))
      (sortStrings (cartVariantIds l2)) :=
    ((List.perm_insertionSort _ _).trans hperm).trans
      (List.perm_insertionSort _ _).symm
  have heq : sortStrings (cartVariantIds l1) = sortStrings (cartVariantIds l2) :=
    List.eq_of_perm_of_sorted hperm2
      (List.sorted_insertionSort _ _) (List.sorted_insertionSort _ _)
  refine ⟨?_, ?_⟩
  · rw [cartSignature, cartSignature, heq]
  · rw [effectRerun, cartSignature, cartSignature, heq]; simp

/-- A cart line holding variant `"1"` with quantity 1. -/
def lineA : CartLine := ⟨"a", some (variantGidFromNumeric "1"), some 1⟩

/-- A cart line holding variant `"2"` with quantity 1. -/
def lineB : CartLine := ⟨"b", some (variantGidFromNumeric "2"), some 1⟩

/-- A cart line holding variant `"2"` with quantity 5. -/
def lineC : CartLine := ⟨"c", some (variantGidFromNumeric "2"), some 5⟩

/-- A cart line holding variant `"1"` with no quantity field. -/
def lineD : CartLine := ⟨"d", some (variantGidFromNumeric "1"), none⟩

/-- Witness for C10: reordered, duplicated lines with different quantities
produce the same signature. -/
theorem cart_signature_set_invariant_witness :
    cartSignature [lineA, lineB] = cartSignature [lineC, lineD, lineA] :=
  (cart_signature_set_invariant [lineA, lineB] [lineC, lineD, lineA] (by
    intro s
    have h1 : [lineA, lineB].filterMap normalizedId = ["1", "2"] := by decide
    have h2 : [lineC, lineD, lineA].filterMap normalizedId = ["2", "1", "1"] := by
      decide
    rw [h1, h2]
    simp only [List.mem_cons, List.not_mem_nil, or_false]
    tauto)).1

end POSAI
